import Mathlib

/-!
The market-chart repository: the `App` component of `src/App.jsx`

A shallow embedding of the stock-chart component: the data fetcher (`fetchData`),
the chart lifecycle effect (`useEffect` body, its cleanup and `handleResize`),
the two response handlers (the effect's `.then` handler and the one of
`handleSubmit`) and the form's `onChange` handlers.

The component talks to three things it does not own: the browser's `Date`
built-in, the charting library behind `window.LightweightCharts`, and the
backend behind `fetch`.  They are modelled as follows.

* `Date`: `new Date(s).getTime()` is modelled for the date-only ISO form
  `YYYY-MM-DD`, which ECMAScript reads as UTC midnight, with the day number
  computed by the ECMAScript formulas `DayFromYear` and the month table of
  `MonthFromTime`.  Every other string is mapped to `none`, which stands for
  `NaN` (or for a form that is not modelled).
* The charting library: every call the component makes on it is appended to a
  log (`Call`), in program order.  Which charts are live and which resize
  listeners are registered is read off that log.
* The backend: a pending request is settled by an `Outcome` supplied by the
  environment.
-/

namespace MarketChart

/-! ## Calendar dates and the `Date` built-in -/

/-- A calendar date: year, month (1 to 12) and day of the month (from 1). -/
structure CalDate where
  year : Nat
  month : Nat
  day : Nat
deriving DecidableEq, Repr

/-- ECMAScript `DaysInYear(y) = 366`. -/
def isLeap (y : Nat) : Bool :=
  y % 4 == 0 && (y % 100 != 0 || y % 400 == 0)

/-- ECMAScript `DaysInYear`. -/
def daysInYear (y : Nat) : Nat := if isLeap y then 366 else 365

/-- Number of days of month `m` (1 to 12) of year `y`. -/
def daysInMonth (y m : Nat) : Nat :=
  match m with
  | 1 => 31
  | 2 => if isLeap y then 29 else 28
  | 3 => 31
  | 4 => 30
  | 5 => 31
  | 6 => 30
  | 7 => 31
  | 8 => 31
  | 9 => 30
  | 10 => 31
  | 11 => 30
  | 12 => 31
  | _ => 0

/-- ECMAScript `DayFromYear`: the day number of January 1st of year `y`,
counted from 1970-01-01. The divisions round down. -/
def dayFromYear (y : Nat) : Int :=
  365 * ((y : Int) - 1970) + ((y : Int) - 1969) / 4 - ((y : Int) - 1901) / 100
    + ((y : Int) - 1601) / 400

/-- First day within the year of month `m` (1 to 12): the thresholds of
ECMAScript `MonthFromTime`. -/
def monthStart (leap : Bool) (m : Nat) : Nat :=
  let l := if leap then 1 else 0
  match m with
  | 1 => 0
  | 2 => 31
  | 3 => 59 + l
  | 4 => 90 + l
  | 5 => 120 + l
  | 6 => 151 + l
  | 7 => 181 + l
  | 8 => 212 + l
  | 9 => 243 + l
  | 10 => 273 + l
  | 11 => 304 + l
  | 12 => 334 + l
  | _ => 0

/-- A date the ISO date-only form can denote: four-digit year, month 1 to 12,
day within the month. -/
def CalDate.valid (c : CalDate) : Bool :=
  decide (c.year ≤ 9999) && decide (1 ≤ c.month) && decide (c.month ≤ 12)
    && decide (1 ≤ c.day) && decide (c.day ≤ daysInMonth c.year c.month)

/-- ECMAScript `MakeDay`: the day number of a date, counted from 1970-01-01. -/
def makeDay (c : CalDate) : Int :=
  dayFromYear c.year + (monthStart (isLeap c.year) c.month : Int) + (c.day : Int) - 1

/-- ECMAScript `msPerDay`. -/
def msPerDay : Int := 86400000

/-- ECMAScript `MakeDate(MakeDay(y, m, d), 0)`: epoch milliseconds of UTC midnight. -/
def utcMidnightMs (c : CalDate) : Int := makeDay c * msPerDay

/-- Value of a decimal digit character. -/
def digitValue (ch : Char) : Option Nat :=
  if 48 ≤ ch.toNat ∧ ch.toNat ≤ 57 then some (ch.toNat - 48) else none

/-- The date-only ISO form `YYYY-MM-DD`, read as a calendar date. -/
def parseIsoDate (s : String) : Option CalDate :=
  match s.data with
  | [y1, y2, y3, y4, s1, m1, m2, s2, d1, d2] =>
    if s1 = '-' ∧ s2 = '-' then
      match digitValue y1, digitValue y2, digitValue y3, digitValue y4,
          digitValue m1, digitValue m2, digitValue d1, digitValue d2 with
      | some a, some b, some c, some d, some e, some f, some g, some h =>
        let r : CalDate := ⟨1000 * a + 100 * b + 10 * c + d, 10 * e + f, 10 * g + h⟩
        if r.valid then some r else none
      | _, _, _, _, _, _, _, _ => none
    else none
  | _ => none

/-- JavaScript `new Date(s).getTime()` on a date string: epoch milliseconds,
`none` for `NaN`. -/
def dateGetTime (s : String) : Option Int :=
  (parseIsoDate s).map utcMidnightMs

/-- JavaScript `Math.floor(t / 1000)`; `NaN` stays `NaN`. The milliseconds of
a date are a multiple of 1000 below `2 ^ 53`, so the floating-point quotient
is exact and the integer division, which rounds down, agrees with it. -/
def floorDiv1000 (t : Option Int) : Option Int :=
  t.map (fun ms => ms / 1000)

/-- The decimal digit character of `n % 10`. -/
def digitChar (n : Nat) : Char := Char.ofNat (48 + n % 10)

/-- The ISO text `YYYY-MM-DD` of a calendar date. -/
def CalDate.iso (c : CalDate) : String :=
  String.mk [digitChar (c.year / 1000), digitChar (c.year / 100), digitChar (c.year / 10),
    digitChar c.year, '-', digitChar (c.month / 10), digitChar c.month, '-',
    digitChar (c.day / 10), digitChar c.day]

/-! ### Unix epoch seconds as the specification words them: counted day by day -/

/-- Number of days in the years `a, …, b - 1` (none when `b ≤ a`). -/
def daysOfYears (a b : Nat) : Nat :=
  ((List.range' a (b - a)).map daysInYear).sum

/-- Number of days in the months `1, …, m - 1` of year `y`. -/
def daysBeforeMonth (y m : Nat) : Nat :=
  ((List.range (m - 1)).map (fun k => daysInMonth y (k + 1))).sum

/-- Number of days from 1970-01-01 to the date, negative before 1970: the
whole years in between, then the whole months of the date's year, then the
days of its month. -/
def epochDay (c : CalDate) : Int :=
  (daysOfYears 1970 c.year : Int) - (daysOfYears c.year 1970 : Int)
    + (daysBeforeMonth c.year c.month : Int) + ((c.day : Int) - 1)

/-- Unix epoch seconds of UTC midnight of a date: 86400 seconds for every day
from 1970-01-01 to the date. -/
def epochSeconds (c : CalDate) : Int := 86400 * epochDay c

/-- Calendar order: by year, then month, then day. -/
def CalDate.le (a b : CalDate) : Prop :=
  a.year < b.year ∨ (a.year = b.year ∧ (a.month < b.month ∨ (a.month = b.month ∧ a.day ≤ b.day)))

instance (a b : CalDate) : Decidable (CalDate.le a b) := by
  unfold CalDate.le; infer_instance


/-! ## Data model -/

/-- One daily bar as the backend sends it. The type `ν` is the type of the
values found in the price fields, which the component only copies. -/
structure DailyBar (ν : Type) where
  date : String
  open_ : ν
  high : ν
  low : ν
  close : ν
deriving DecidableEq, Repr

/-- The renderer's point format. The field `time` is `none` when the
computation yields `NaN`. -/
structure Point (ν : Type) where
  time : Option Int
  open_ : ν
  high : ν
  low : ν
  close : ν
deriving DecidableEq, Repr

/-- The mapping of both response handlers:
`d => ({ time: Math.floor(new Date(d.date).getTime() / 1000), open: d.open, high: d.high,
low: d.low, close: d.close })`. -/
def toPoint {ν : Type} (d : DailyBar ν) : Point ν :=
  { time := floorDiv1000 (dateGetTime d.date)
    open_ := d.open_
    high := d.high
    low := d.low
    close := d.close }

/-- A parsed JSON body: an array of records, or an object that may carry an
`error` string. -/
inductive Body (ν : Type) where
  | array (records : List (DailyBar ν))
  | object (error : Option String)
deriving DecidableEq, Repr

/-- The property read `data.error`; `none` is `undefined`. -/
def Body.error {ν : Type} : Body ν → Option String
  | .array _ => none
  | .object e => e

/-- The test `data.length > 0`; an object has no `length`, and
`undefined > 0` is false. -/
def Body.nonEmpty {ν : Type} : Body ν → Bool
  | .array records => decide (records.length > 0)
  | .object _ => false

/-- The elements `data.map` runs over. -/
def Body.records {ν : Type} : Body ν → List (DailyBar ν)
  | .array records => records
  | .object _ => []

/-- How a request settles: `fetch` or `response.json()` rejects with an error
of the given message, or a response arrives with its `ok` flag (true exactly
for a 2xx status) and its parsed body. -/
inductive Outcome (ν : Type) where
  | rejected (message : String)
  | response (ok : Bool) (data : Body ν)
deriving DecidableEq, Repr

/-- JavaScript `e || fallback` for `e` a string or `undefined`: the empty
string and `undefined` are falsy. -/
def orElse (e : Option String) (fallback : String) : String :=
  match e with
  | some s => if s = "" then fallback else s
  | none => fallback

/-- The calls the component makes on its environment: the backend, the
charting library and the window. Charts and listeners are named by the
identity they got when they were created. -/
inductive Call (ν : Type) where
  | fetch (url : String)
  | createChart (chart : Nat) (width : Nat) (height : Nat)
  | addCandlestickSeries (chart : Nat)
  | setData (chart : Nat) (series : Nat) (points : List (Point ν))
  | fitContent (chart : Nat)
  | applyOptions (chart : Nat) (width : Nat)
  | remove (chart : Nat)
  | addEventListener (listener : Nat)
  | removeEventListener (listener : Nat)
deriving DecidableEq, Repr

/-- What `window.LightweightCharts` offers. With `unavailable` the
initialisation throws an error of the given message before a chart exists
(the global is missing, or `createChart` throws); with `noCandlestick`,
`createChart` returns charts that have no `addCandlestickSeries`. -/
inductive Library where
  | unavailable (message : String)
  | noCandlestick
  | full
deriving DecidableEq, Repr

/-- A chart object as the component holds it in `chartRef`: its identity and
the number of series it has. -/
structure ChartHandle where
  id : Nat
  series : Nat
deriving DecidableEq, Repr

/-- The call `chart.getSeriesByIndex(i)`: the index of the series when the
chart has one there, `none` for `undefined`. -/
def ChartHandle.getSeriesByIndex (c : ChartHandle) (i : Nat) : Option Nat :=
  if i < c.series then some i else none

/-- The callback waiting on a pending `fetchData()` promise: the one of the
effect run that created `chart` (it captured `candlestickSeries`, series 0 of
that chart), or the one of `handleSubmit`. -/
inductive Handler where
  | effect (chart : Nat)
  | submit
deriving DecidableEq, Repr

/-- Life of the component instance. -/
inductive Phase where
  | initial
  | mounted
  | unmounted
deriving DecidableEq, Repr

/-- The component instance together with its environment.

* `ticker`, `startDate`, `endDate`, `error`: the four `useState` cells;
* `container`: `chartContainerRef.current`, given by its `clientWidth`;
* `chartRef`: `chartRef.current`;
* `lib`: `window.LightweightCharts`;
* `cleanup`: the cleanup function returned by the last effect run, given by
  the `handleResize` listener it captured;
* `pending`: the callbacks of the requests in flight;
* `fresh`: the next unused object identity;
* `uncaught`: number of errors thrown out of a promise callback;
* `log`: the calls made so far. -/
structure World (ν : Type) where
  ticker : String
  startDate : String
  endDate : String
  error : Option String
  container : Option Nat
  chartRef : Option ChartHandle
  lib : Library
  phase : Phase
  cleanup : Option Nat
  pending : List Handler
  fresh : Nat
  uncaught : Nat
  log : List (Call ν)
deriving DecidableEq, Repr

/-- State of a component instance before it mounts: the `useState` and
`useRef` initial values. -/
def init (ν : Type) (lib : Library) : World ν :=
  { ticker := "AAPL"
    startDate := "2023-01-01"
    endDate := "2024-01-01"
    error := none
    container := none
    chartRef := none
    lib := lib
    phase := Phase.initial
    cleanup := none
    pending := []
    fresh := 0
    uncaught := 0
    log := [] }

/-- The state setter `setError`. -/
def World.setError {ν : Type} (w : World ν) (e : Option String) : World ν :=
  { w with error := e }

/-- Append a call to the log. -/
def World.call {ν : Type} (w : World ν) (c : Call ν) : World ν :=
  { w with log := w.log ++ [c] }

/-- Register the callback of a promise returned by `fetchData()`. -/
def World.andThen {ν : Type} (w : World ν) (h : Handler) : World ν :=
  { w with pending := w.pending ++ [h] }

/-- Two date strings are valid ISO dates, the first not after the second. -/
def dateLe (a b : String) : Prop :=
  match parseIsoDate a, parseIsoDate b with
  | some x, some y => CalDate.le x y
  | _, _ => False

instance (a b : String) : Decidable (dateLe a b) := by
  unfold dateLe; split <;> infer_instance

/-- A record whose `date` is a valid ISO date. -/
def wellFormed {ν : Type} (d : DailyBar ν) : Bool := (parseIsoDate d.date).isSome

/-! ## Observations on the log -/

/-- How one call changes the list of live charts. -/
def liveChartsStep {ν : Type} (acc : List Nat) : Call ν → List Nat
  | .createChart chart _ _ => acc ++ [chart]
  | .remove chart => acc.erase chart
  | _ => acc

/-- Charts created by `createChart` and not removed since. -/
def liveCharts {ν : Type} (log : List (Call ν)) : List Nat :=
  log.foldl liveChartsStep []

/-- How one call changes the list of registered resize listeners. -/
def listenersStep {ν : Type} (acc : List Nat) : Call ν → List Nat
  | .addEventListener l => acc ++ [l]
  | .removeEventListener l => acc.erase l
  | _ => acc

/-- Resize listeners registered on the window and not removed since. -/
def listeners {ν : Type} (log : List (Call ν)) : List Nat :=
  log.foldl listenersStep []

/-- The URLs of the requests issued, in order. -/
def requests {ν : Type} (log : List (Call ν)) : List String :=
  log.filterMap (fun c =>
    match c with
    | .fetch u => some u
    | _ => none)

/-- The datasets passed to `setData`, with the chart and series they went to. -/
def dataSets {ν : Type} (log : List (Call ν)) : List (Nat × Nat × List (Point ν)) :=
  log.filterMap (fun c =>
    match c with
    | .setData chart series points => some (chart, series, points)
    | _ => none)

/-- The listeners, the live charts, the lifecycle fields, the chart reference
and the ticker are the same in both worlds. -/
def SameShell {ν : Type} (w v : World ν) : Prop :=
  listeners v.log = listeners w.log ∧ liveCharts v.log = liveCharts w.log
    ∧ v.cleanup = w.cleanup ∧ v.phase = w.phase ∧ v.container = w.container
    ∧ v.chartRef = w.chartRef ∧ v.lib = w.lib ∧ v.ticker = w.ticker

/-- What holds of the lifecycle in every state the component reaches: the
registered listeners are exactly the one the pending cleanup captured; a
mounted component has a cleanup pending and its container attached; before
mounting and after unmounting nothing is pending and no chart is held; a
held chart has its single series; and, unless the library lacks
`addCandlestickSeries`, the live charts are exactly the one held. -/
def Inv {ν : Type} (w : World ν) : Prop :=
  listeners w.log = w.cleanup.toList
    ∧ (w.phase = Phase.initial → w.cleanup = none ∧ w.chartRef = none)
    ∧ (w.phase = Phase.mounted → w.cleanup.isSome = true ∧ w.container.isSome = true)
    ∧ (w.phase = Phase.unmounted → w.cleanup = none ∧ w.chartRef = none)
    ∧ (∀ c, w.chartRef = some c → c.series = 1)
    ∧ (w.lib ≠ Library.noCandlestick →
        liveCharts w.log = (w.chartRef.map (fun c => c.id)).toList)

/-! ## The component -/

/-- The request URL of `fetchData`:
`http://localhost:5001/api/stock/${ticker}?start=${startDate}&end=${endDate}`. -/
def url {ν : Type} (w : World ν) : String :=
  "http://localhost:5001/api/stock/" ++ w.ticker ++ "?start=" ++ w.startDate ++ "&end="
    ++ w.endDate

/-- The first part of `fetchData`, up to `await fetch(...)`: the request is issued. -/
def fetchData {ν : Type} (w : World ν) : World ν :=
  w.call (.fetch (url w))

/-- The rest of `fetchData`, run when the request settles; the second
component is the value the promise resolves to. A rejection, or a response
that is not `ok`, ends in the `catch` block: `setError(err.message)` and `[]`. -/
def fetchDataSettle {ν : Type} (o : Outcome ν) (w : World ν) : World ν × Body ν :=
  match o with
  | .rejected message => (w.setError (some message), .array [])
  | .response ok data =>
    if !ok then
      (w.setError (some (orElse data.error "Failed to fetch data")), .array [])
    else
      (w, data)

/-- The `.then` callback of the effect, for the run that created `chart`.
When `chartRef.current` is `null`, the read `chartRef.current.timeScale()`
throws after `setData` has been called, and the rest is skipped. -/
def effectThen {ν : Type} (chart : Nat) (data : Body ν) (w : World ν) : World ν :=
  if data.nonEmpty then
    let chartData := data.records.map toPoint
    let w1 := w.call (.setData chart 0 chartData)
    match w1.chartRef with
    | some c => (w1.call (.fitContent c.id)).setError none
    | none => { w1 with uncaught := w1.uncaught + 1 }
  else
    w.setError (some "No data received from backend")

/-- The `.then` callback of `handleSubmit`. -/
def submitThen {ν : Type} (data : Body ν) (w : World ν) : World ν :=
  match data.nonEmpty, w.chartRef with
  | true, some c =>
    let chartData := data.records.map toPoint
    match c.getSeriesByIndex 0 with
    | some candlestickSeries =>
      ((w.call (.setData c.id candlestickSeries chartData)).call (.fitContent c.id)).setError none
    | none => w.setError (some "Candlestick series not found")
  | _, _ => w.setError (some "No data received from backend")

/-- The `try` block of the effect with its `catch`: create the chart and its
series, store the chart in `chartRef`, start the load. -/
def tryInit {ν : Type} (width : Nat) (w : World ν) : World ν :=
  match w.lib with
  | .unavailable message => w.setError (some ("Failed to initialize chart: " ++ message))
  | .noCandlestick =>
    let w1 := { w.call (.createChart w.fresh width 500) with fresh := w.fresh + 1 }
    w1.setError (some ("Failed to initialize chart: "
      ++ "addCandlestickSeries is not available on chart object"))
  | .full =>
    let chart := w.fresh
    let w1 := { w.call (.createChart chart width 500) with fresh := w.fresh + 1 }
    let w2 := w1.call (.addCandlestickSeries chart)
    let w3 := { w2 with chartRef := some ⟨chart, 1⟩ }
    (fetchData w3).andThen (.effect chart)

/-- The body of the `useEffect` callback. -/
def effect {ν : Type} (w : World ν) : World ν :=
  match w.container with
  | some width =>
    let w1 := tryInit width w
    let handleResize := w1.fresh
    let w2 := { w1.call (.addEventListener handleResize) with fresh := w1.fresh + 1 }
    { w2 with cleanup := some handleResize }
  | none => { w with cleanup := none }

/-- The cleanup function returned by the effect run that registered the
listener `handleResize`. -/
def cleanup {ν : Type} (handleResize : Nat) (w : World ν) : World ν :=
  let w1 := w.call (.removeEventListener handleResize)
  match w1.chartRef with
  | some c => { w1.call (.remove c.id) with chartRef := none }
  | none => w1

/-- The listener `handleResize`. -/
def handleResize {ν : Type} (w : World ν) : World ν :=
  match w.chartRef, w.container with
  | some c, some width => w.call (.applyOptions c.id width)
  | _, _ => w

/-- `handleSubmit`: `fetchData().then(...)`. -/
def handleSubmit {ν : Type} (w : World ν) : World ν :=
  (fetchData w).andThen .submit

/-- A render in which a dependency of the effect changed: the previous
cleanup runs, then the effect. -/
def rerun {ν : Type} (w : World ν) : World ν :=
  match w.cleanup with
  | some l => effect (cleanup l w)
  | none => effect w

/-- The state setter `setTicker`: a value equal to the current one changes nothing. -/
def setTicker {ν : Type} (v : String) (w : World ν) : World ν :=
  if v = w.ticker then w else rerun { w with ticker := v }

/-- The state setter `setStartDate`. -/
def setStartDate {ν : Type} (v : String) (w : World ν) : World ν :=
  if v = w.startDate then w else rerun { w with startDate := v }

/-- The state setter `setEndDate`. -/
def setEndDate {ν : Type} (v : String) (w : World ν) : World ν :=
  if v = w.endDate then w else rerun { w with endDate := v }

/-- Upper-casing of one ASCII character: `a` to `z` become `A` to `Z`. -/
def upperChar (c : Char) : Char :=
  if 97 ≤ c.toNat ∧ c.toNat ≤ 122 then Char.ofNat (c.toNat - 32) else c

/-- JavaScript `toUpperCase` on ASCII text: the letters `a` to `z` become
`A` to `Z`, every other character stays. -/
def toUpperCase (s : String) : String := String.mk (s.data.map upperChar)

/-- The `onChange` handler of the ticker input:
`setTicker(e.target.value.toUpperCase())`, with `upper` for `toUpperCase`. -/
def tickerOnChange {ν : Type} (upper : String → String) (value : String) (w : World ν) :
    World ν :=
  setTicker (upper value) w

/-- Completion of a load: the rest of `fetchData` runs with the outcome of
the request, then the callback registered on its promise runs with the value
`fetchData` resolved to. -/
def complete {ν : Type} (h : Handler) (o : Outcome ν) (w : World ν) : World ν :=
  let r := fetchDataSettle o w
  match h with
  | .effect chart => effectThen chart r.2 r.1
  | .submit => submitThen r.2 r.1

/-- The pending request number `i` settles. -/
def settle {ν : Type} (i : Nat) (o : Outcome ν) (w : World ν) : World ν :=
  match w.pending.get? i with
  | some h => complete h o { w with pending := w.pending.eraseIdx i }
  | none => w

/-- What can happen to the component. -/
inductive Event (ν : Type) where
  | mount (width : Nat)
  | tickerChange (value : String)
  | startDateChange (value : String)
  | endDateChange (value : String)
  | submit
  | resize (width : Nat)
  | settle (i : Nat) (o : Outcome ν)
  | unmount
deriving DecidableEq, Repr

/-- One event. Mounting attaches the container and runs the effect; the form
events reach a mounted component only; a window resize changes the width of
an attached container and calls every registered listener; unmounting runs
the cleanup and detaches the container. -/
def step {ν : Type} (upper : String → String) (w : World ν) : Event ν → World ν
  | .mount width =>
    if w.phase = Phase.initial then
      effect { w with phase := Phase.mounted, container := some width }
    else w
  | .tickerChange value =>
    if w.phase = Phase.mounted then tickerOnChange upper value w else w
  | .startDateChange value =>
    if w.phase = Phase.mounted then setStartDate value w else w
  | .endDateChange value =>
    if w.phase = Phase.mounted then setEndDate value w else w
  | .submit =>
    if w.phase = Phase.mounted then handleSubmit w else w
  | .resize width =>
    let w1 := { w with container := w.container.map (fun _ => width) }
    (listeners w1.log).foldl (fun acc _ => handleResize acc) w1
  | .settle i o => settle i o w
  | .unmount =>
    if w.phase = Phase.mounted then
      let w1 := match w.cleanup with
        | some l => cleanup l w
        | none => w
      { w1 with phase := Phase.unmounted, container := none, cleanup := none }
    else w

/-- A sequence of events, from the left. -/
def run {ν : Type} (upper : String → String) (w : World ν) (es : List (Event ν)) : World ν :=
  es.foldl (step upper) w


/-! ## The `Date` model against the day count -/

theorem digitValue_digitChar (n : Nat) : digitValue (digitChar n) = some (n % 10) := by
  have h : n % 10 < 10 := Nat.mod_lt _ (by decide)
  unfold digitChar
  generalize n % 10 = k at h
  interval_cases k <;> rfl

theorem dayFromYear_succ (y : Nat) : dayFromYear (y + 1) = dayFromYear y + daysInYear y := by
  unfold dayFromYear daysInYear isLeap
  split_ifs with h <;> simp at h <;> push_cast <;> omega

theorem daysOfYears_succ_right (a b : Nat) (h : a ≤ b) :
    daysOfYears a (b + 1) = daysOfYears a b + daysInYear b := by
  unfold daysOfYears
  have : b + 1 - a = (b - a) + 1 := by omega
  rw [this, List.range'_concat]
  simp
  congr 1
  omega

theorem daysOfYears_succ_left (a b : Nat) (h : a < b) :
    daysOfYears a b = daysInYear a + daysOfYears (a + 1) b := by
  unfold daysOfYears
  have : b - a = (b - (a + 1)) + 1 := by omega
  rw [this, List.range'_succ]
  simp

theorem daysOfYears_of_le (a b : Nat) (h : b ≤ a) : daysOfYears a b = 0 := by
  unfold daysOfYears
  have : b - a = 0 := by omega
  rw [this]; rfl

theorem dayFromYear_eq_of_ge (y : Nat) (h : 1970 ≤ y) :
    dayFromYear y = (daysOfYears 1970 y : Int) - (daysOfYears y 1970 : Int) := by
  induction y, h using Nat.le_induction with
  | base => decide
  | succ n hn ih =>
    rw [dayFromYear_succ, ih, daysOfYears_succ_right 1970 n hn, daysOfYears_of_le n 1970 hn,
      daysOfYears_of_le (n + 1) 1970 (by omega)]
    push_cast; ring

theorem dayFromYear_eq_of_le (k : Nat) (h : k ≤ 1970) :
    dayFromYear (1970 - k)
      = (daysOfYears 1970 (1970 - k) : Int) - (daysOfYears (1970 - k) 1970 : Int) := by
  induction k with
  | zero => decide
  | succ n ih =>
    have e : 1970 - n = (1970 - (n + 1)) + 1 := by omega
    have ih2 := ih (by omega)
    rw [e, dayFromYear_succ] at ih2
    rw [daysOfYears_succ_left (1970 - (n + 1)) 1970 (by omega),
      daysOfYears_of_le 1970 (1970 - (n + 1)) (by omega)]
    rw [daysOfYears_of_le 1970 (1970 - (n + 1) + 1) (by omega)] at ih2
    push_cast at ih2 ⊢
    linarith

theorem dayFromYear_eq (y : Nat) :
    dayFromYear y = (daysOfYears 1970 y : Int) - (daysOfYears y 1970 : Int) := by
  rcases Nat.lt_or_ge y 1970 with h | h
  · have := dayFromYear_eq_of_le (1970 - y) (by omega)
    have e : 1970 - (1970 - y) = y := by omega
    rwa [e] at this
  · exact dayFromYear_eq_of_ge y h

theorem monthStart_eq (y m : Nat) (h1 : 1 ≤ m) (h2 : m ≤ 12) :
    monthStart (isLeap y) m = daysBeforeMonth y m := by
  interval_cases m <;> cases hl : isLeap y <;> simp [monthStart, daysBeforeMonth, daysInMonth, hl, List.range_succ]

theorem makeDay_eq (c : CalDate) (h : c.valid = true) : makeDay c = epochDay c := by
  simp only [CalDate.valid, Bool.and_eq_true, decide_eq_true_eq] at h
  obtain ⟨⟨⟨⟨_, h1⟩, h2⟩, _⟩, _⟩ := h
  unfold makeDay epochDay
  rw [dayFromYear_eq, monthStart_eq _ _ h1 h2]
  ring

theorem parseIsoDate_iso (c : CalDate) (h : c.valid = true) : parseIsoDate c.iso = some c := by
  have hv := h
  simp only [CalDate.valid, Bool.and_eq_true, decide_eq_true_eq] at h
  obtain ⟨⟨⟨⟨hy, h1⟩, h2⟩, h3⟩, h4⟩ := h
  have hd : c.day ≤ 31 := by
    have : daysInMonth c.year c.month ≤ 31 := by
      unfold daysInMonth; split <;> try split
      all_goals omega
    omega
  have e : (⟨1000 * (c.year / 1000 % 10) + 100 * (c.year / 100 % 10) + 10 * (c.year / 10 % 10)
      + c.year % 10, 10 * (c.month / 10 % 10) + c.month % 10,
      10 * (c.day / 10 % 10) + c.day % 10⟩ : CalDate) = c := by
    cases c; simp only [CalDate.mk.injEq] at *; omega
  simp only [parseIsoDate, CalDate.iso, digitValue_digitChar]
  simp [e, hv]

theorem dayFromYear_lt (a b : Nat) (h : a < b) :
    dayFromYear a + daysInYear a ≤ dayFromYear b := by
  induction b, h using Nat.le_induction with
  | base => rw [dayFromYear_succ]
  | succ n hn ih =>
    rw [dayFromYear_succ]
    have : (0 : Int) ≤ daysInYear n := Int.natCast_nonneg _
    omega

theorem monthStart_lt (y m m' : Nat) (h1 : 1 ≤ m) (h : m < m') (h2 : m' ≤ 12) :
    monthStart (isLeap y) m + daysInMonth y m ≤ monthStart (isLeap y) m' := by
  cases hl : isLeap y <;> interval_cases m' <;> interval_cases m <;>
    simp [monthStart, daysInMonth, hl]

theorem monthStart_last (y m : Nat) (h1 : 1 ≤ m) (h2 : m ≤ 12) :
    monthStart (isLeap y) m + daysInMonth y m ≤ daysInYear y := by
  cases hl : isLeap y <;> interval_cases m <;> simp [monthStart, daysInMonth, daysInYear, hl]

theorem makeDay_mono (a b : CalDate) (ha : a.valid = true) (hb : b.valid = true)
    (h : CalDate.le a b) : makeDay a ≤ makeDay b := by
  simp only [CalDate.valid, Bool.and_eq_true, decide_eq_true_eq] at ha hb
  obtain ⟨⟨⟨⟨_, a1⟩, a2⟩, a3⟩, a4⟩ := ha
  obtain ⟨⟨⟨⟨_, b1⟩, b2⟩, b3⟩, b4⟩ := hb
  unfold makeDay
  rcases h with h | ⟨hy, h | ⟨hm, hd⟩⟩
  · have k1 := dayFromYear_lt _ _ h
    have k2 := monthStart_last a.year a.month a1 a2
    omega
  · have k := monthStart_lt a.year a.month b.month a1 h b2
    rw [← hy]
    omega
  · rw [← hy, ← hm]
    omega

/-! ## The response handlers -/

theorem parseIsoDate_valid (s : String) (c : CalDate) (h : parseIsoDate s = some c) :
    c.valid = true := by
  unfold parseIsoDate at h
  split at h
  · split at h
    · split at h
      · dsimp only at h
        split at h
        · simp only [Option.some.injEq] at h
          rw [← h]; assumption
        · simp at h
      · simp at h
    · simp at h
  · simp at h

theorem time_iso (c : CalDate) (h : c.valid = true) :
    dateGetTime c.iso = some (epochSeconds c * 1000)
      ∧ floorDiv1000 (dateGetTime c.iso) = some (epochSeconds c) := by
  have e : utcMidnightMs c = epochSeconds c * 1000 := by
    unfold utcMidnightMs epochSeconds msPerDay
    rw [makeDay_eq c h]; ring
  simp only [dateGetTime, floorDiv1000, parseIsoDate_iso c h, Option.map_some', e]
  constructor
  · trivial
  · congr 1
    exact Int.mul_ediv_cancel _ (by decide)

theorem time_mono (a b : String) (h : dateLe a b) :
    ∃ s t, floorDiv1000 (dateGetTime a) = some s ∧ floorDiv1000 (dateGetTime b) = some t
      ∧ s ≤ t := by
  unfold dateLe at h
  split at h
  · rename_i x y hx hy
    refine ⟨utcMidnightMs x / 1000, utcMidnightMs y / 1000, ?_, ?_, ?_⟩
    · simp [floorDiv1000, dateGetTime, hx]
    · simp [floorDiv1000, dateGetTime, hy]
    · have m := makeDay_mono x y (parseIsoDate_valid _ _ hx) (parseIsoDate_valid _ _ hy) h
      unfold utcMidnightMs msPerDay
      omega
  · exact h.elim

theorem complete_empty {ν : Type} (h : Handler) (w : World ν) :
    (complete h (.response true (.array [])) w).error = some "No data received from backend"
      ∧ (complete h (.response true (.array [])) w).log = w.log := by
  cases h <;>
    simp [complete, fetchDataSettle, effectThen, submitThen, Body.nonEmpty, World.setError]

theorem complete_ready {ν : Type} (h : Handler) (w : World ν) (c : ChartHandle)
    (records : List (DailyBar ν)) (hc : w.chartRef = some c) (hs : 0 < c.series)
    (hn : records ≠ []) :
    (complete h (.response true (.array records)) w).error = none
      ∧ ∃ chart, (complete h (.response true (.array records)) w).log
          = w.log ++ [.setData chart 0 (records.map toPoint), .fitContent c.id]
        ∧ (h = .submit → chart = c.id) ∧ (∀ k, h = .effect k → chart = k) := by
  have hl : 0 < records.length := List.length_pos.mpr hn
  cases h with
  | effect k =>
    refine ⟨?_, k, ?_, ?_, ?_⟩ <;>
      simp [complete, fetchDataSettle, effectThen, Body.nonEmpty, Body.records, World.setError,
        World.call, hc, hl]
  | submit =>
    refine ⟨?_, c.id, ?_, ?_, ?_⟩ <;>
      simp [complete, fetchDataSettle, submitThen, Body.nonEmpty, Body.records, World.setError,
        World.call, hc, hl, ChartHandle.getSeriesByIndex, hs]

theorem handlers_agree_ready {ν : Type} (w : World ν) (c : ChartHandle) (data : Body ν)
    (hc : w.chartRef = some c) (hs : 0 < c.series) :
    effectThen c.id data w = submitThen data w := by
  cases hd : data.nonEmpty <;>
    simp [effectThen, submitThen, hd, hc, World.call, World.setError,
      ChartHandle.getSeriesByIndex, hs]

theorem handlers_agree_empty {ν : Type} (w : World ν) (chart : Nat) (data : Body ν)
    (hd : data.nonEmpty = false) :
    effectThen chart data w = submitThen data w := by
  simp [effectThen, submitThen, hd]

theorem complete_failed {ν : Type} (h : Handler) (ok : Bool) (data : Body ν) (w : World ν)
    (hk : ok = false) :
    (fetchDataSettle (.response ok data) w).1.error
        = some (orElse data.error "Failed to fetch data")
      ∧ (complete h (.response ok data) w).error = some "No data received from backend" := by
  subst hk
  cases h <;>
    simp [complete, fetchDataSettle, effectThen, submitThen, Body.nonEmpty, World.setError]

/-! ## Observations when calls are appended -/

theorem listeners_append {ν : Type} (log more : List (Call ν)) :
    listeners (log ++ more) = more.foldl listenersStep (listeners log) := by
  simp only [listeners, List.foldl_append]

theorem liveCharts_append {ν : Type} (log more : List (Call ν)) :
    liveCharts (log ++ more) = more.foldl liveChartsStep (liveCharts log) := by
  simp only [liveCharts, List.foldl_append]

theorem requests_append {ν : Type} (log more : List (Call ν)) :
    requests (log ++ more) = requests log ++ requests more := by
  simp only [requests, List.filterMap_append]

/-! ## What each part of the component leaves alone -/

theorem complete_shell {ν : Type} (h : Handler) (o : Outcome ν) (w : World ν) :
    SameShell w (complete h o w) := by
  unfold SameShell complete fetchDataSettle effectThen submitThen
  cases h <;> cases o <;> simp only [World.setError, World.call] <;>
    (repeat' split) <;>
    simp [listeners_append, liveCharts_append, listenersStep, liveChartsStep]

theorem settle_shell {ν : Type} (i : Nat) (o : Outcome ν) (w : World ν) :
    SameShell w (settle i o w) := by
  unfold settle
  split
  · exact complete_shell _ _ _
  · simp [SameShell]

theorem handleResize_shell {ν : Type} (w : World ν) : SameShell w (handleResize w) := by
  unfold handleResize
  split <;> simp [SameShell, World.call, listeners_append, liveCharts_append, listenersStep,
    liveChartsStep]

theorem SameShell.trans {ν : Type} {a b c : World ν} (h1 : SameShell a b) (h2 : SameShell b c) :
    SameShell a c := by
  unfold SameShell at *
  obtain ⟨a1, a2, a3, a4, a5, a6, a7, a8⟩ := h1
  obtain ⟨b1, b2, b3, b4, b5, b6, b7, b8⟩ := h2
  exact ⟨b1.trans a1, b2.trans a2, b3.trans a3, b4.trans a4, b5.trans a5, b6.trans a6,
    b7.trans a7, b8.trans a8⟩

theorem resize_fold_shell {ν : Type} (ls : List Nat) (w : World ν) :
    SameShell w (ls.foldl (fun acc _ => handleResize acc) w) := by
  induction ls generalizing w with
  | nil => simp [SameShell]
  | cons l ls ih => exact (handleResize_shell w).trans (ih _)

theorem handleSubmit_shell {ν : Type} (w : World ν) : SameShell w (handleSubmit w) := by
  simp [SameShell, handleSubmit, fetchData, World.call, World.andThen, listeners_append,
    liveCharts_append, listenersStep, liveChartsStep]

theorem SameShell.inv {ν : Type} {w v : World ν} (h : SameShell w v) (hw : Inv w) : Inv v := by
  obtain ⟨a1, a2, a3, a4, a5, a6, a7, _⟩ := h
  unfold Inv at *
  rw [a1, a2, a3, a4, a5, a6, a7]
  exact hw

theorem tryInit_shell {ν : Type} (width : Nat) (w : World ν) :
    listeners (tryInit width w).log = listeners w.log
      ∧ (tryInit width w).cleanup = w.cleanup ∧ (tryInit width w).phase = w.phase
      ∧ (tryInit width w).container = w.container ∧ (tryInit width w).lib = w.lib
      ∧ (tryInit width w).ticker = w.ticker := by
  unfold tryInit
  split <;> simp [World.setError, World.call, World.andThen, fetchData, listeners_append,
    listenersStep]

theorem tryInit_chart {ν : Type} (width : Nat) (w : World ν) (h : w.chartRef = none) :
    (∀ c, (tryInit width w).chartRef = some c → c.series = 1)
      ∧ (w.lib ≠ Library.noCandlestick →
          liveCharts (tryInit width w).log
            = liveCharts w.log ++ ((tryInit width w).chartRef.map (fun c => c.id)).toList) := by
  unfold tryInit
  split <;> rename_i hl <;>
    simp [World.setError, World.call, World.andThen, fetchData, liveCharts_append,
      liveChartsStep, h, hl]

theorem effect_spec {ν : Type} (w : World ν) (width : Nat) (h : w.container = some width) :
    (effect w).cleanup = some (tryInit width w).fresh
      ∧ listeners (effect w).log = listeners w.log ++ [(tryInit width w).fresh]
      ∧ liveCharts (effect w).log = liveCharts (tryInit width w).log
      ∧ (effect w).chartRef = (tryInit width w).chartRef
      ∧ (effect w).phase = w.phase ∧ (effect w).container = w.container
      ∧ (effect w).lib = w.lib ∧ (effect w).ticker = w.ticker := by
  obtain ⟨t1, t2, t3, t4, t5, t6⟩ := tryInit_shell width w
  simp [effect, h, World.call, listeners_append, listenersStep, liveCharts_append,
    liveChartsStep, t1, t3, t4, t5, t6]

theorem cleanup_spec {ν : Type} (l : Nat) (w : World ν) :
    listeners (cleanup l w).log = (listeners w.log).erase l
      ∧ (cleanup l w).chartRef = none
      ∧ liveCharts (cleanup l w).log
          = (liveCharts w.log).diff ((w.chartRef.map (fun c => c.id)).toList)
      ∧ (cleanup l w).cleanup = w.cleanup
      ∧ (cleanup l w).phase = w.phase ∧ (cleanup l w).container = w.container
      ∧ (cleanup l w).lib = w.lib ∧ (cleanup l w).ticker = w.ticker := by
  unfold cleanup
  cases hc : w.chartRef <;>
    simp [World.call, hc, listeners_append, listenersStep, liveCharts_append, liveChartsStep]

theorem effect_inv {ν : Type} (w : World ν) (width : Nat) (hc : w.container = some width)
    (hl : listeners w.log = []) (hr : w.chartRef = none)
    (hv : w.lib ≠ Library.noCandlestick → liveCharts w.log = [])
    (hp : w.phase = Phase.mounted) : Inv (effect w) := by
  obtain ⟨e1, e2, e3, e4, e5, e6, e7, _⟩ := effect_spec w width hc
  obtain ⟨c1, c2⟩ := tryInit_chart width w hr
  unfold Inv
  rw [e1, e2, e4, e5, e6, e7, e3, hl, hp, hc]
  refine ⟨by simp, by simp, by simp, by simp, c1, ?_⟩
  intro hlib
  rw [c2 hlib, hv hlib]
  simp

theorem rerun_inv {ν : Type} (w : World ν) (hw : Inv w) (hp : w.phase = Phase.mounted) :
    Inv (rerun w) := by
  obtain ⟨i1, _, i3, _, _, i6⟩ := hw
  obtain ⟨k1, k2⟩ := i3 hp
  obtain ⟨l, hl⟩ := Option.isSome_iff_exists.mp k1
  obtain ⟨width, hwd⟩ := Option.isSome_iff_exists.mp k2
  obtain ⟨c1, c2, c3, _, c5, c6, c7, _⟩ := cleanup_spec l w
  unfold rerun
  rw [hl]
  refine effect_inv (cleanup l w) width (by rw [c6, hwd]) ?_ c2 ?_ (by rw [c5, hp])
  · rw [c1, i1, hl]; simp
  · intro hlib
    rw [c7] at hlib
    rw [c3, i6 hlib]
    cases w.chartRef <;> simp [List.diff]

theorem step_inv {ν : Type} (upper : String → String) (w : World ν) (e : Event ν)
    (hw : Inv w) : Inv (step upper w e) := by
  cases e with
  | mount width =>
    simp only [step]
    split
    · rename_i hp
      obtain ⟨i1, i2, _, _, _, i6⟩ := hw
      obtain ⟨k1, k2⟩ := i2 hp
      refine effect_inv _ width rfl ?_ k2 ?_ rfl
      · show listeners w.log = []
        rw [i1, k1]; rfl
      · intro hlib
        show liveCharts w.log = []
        rw [i6 hlib, k2]; rfl
    · exact hw
  | tickerChange value =>
    simp only [step, tickerOnChange, setTicker]
    split
    · rename_i hp
      split
      · exact hw
      · exact rerun_inv _ hw hp
    · exact hw
  | startDateChange value =>
    simp only [step, setStartDate]
    split
    · rename_i hp
      split
      · exact hw
      · exact rerun_inv _ hw hp
    · exact hw
  | endDateChange value =>
    simp only [step, setEndDate]
    split
    · rename_i hp
      split
      · exact hw
      · exact rerun_inv _ hw hp
    · exact hw
  | submit =>
    simp only [step]
    split
    · exact (handleSubmit_shell w).inv hw
    · exact hw
  | resize width =>
    simp only [step]
    refine (resize_fold_shell _ _).inv ?_
    obtain ⟨i1, i2, i3, i4, i5, i6⟩ := hw
    refine ⟨i1, i2, ?_, i4, i5, i6⟩
    intro hp
    obtain ⟨k1, k2⟩ := i3 hp
    refine ⟨k1, ?_⟩
    show (w.container.map (fun _ => width)).isSome = true
    simpa using k2
  | settle i o => exact (settle_shell i o w).inv hw
  | unmount =>
    simp only [step]
    split
    · rename_i hp
      obtain ⟨i1, _, i3, _, _, i6⟩ := hw
      obtain ⟨k1, _⟩ := i3 hp
      obtain ⟨l, hl⟩ := Option.isSome_iff_exists.mp k1
      obtain ⟨c1, c2, c3, _, _, _, c7, _⟩ := cleanup_spec l w
      rw [hl]
      refine ⟨?_, by simp, by simp, ?_, ?_, ?_⟩
      · show listeners (cleanup l w).log = _
        rw [c1, i1, hl]; simp
      · intro _
        exact ⟨rfl, c2⟩
      · intro c hc
        have : (cleanup l w).chartRef = some c := hc
        rw [c2] at this
        cases this
      · intro hlib
        have hlib2 : w.lib ≠ Library.noCandlestick := by
          intro h; apply hlib; show (cleanup l w).lib = _; rw [c7, h]
        show liveCharts (cleanup l w).log = ((cleanup l w).chartRef.map _).toList
        rw [c3, c2, i6 hlib2]
        cases w.chartRef <;> simp [List.diff]
    · exact hw

theorem init_inv (ν : Type) (lib : Library) : Inv (init ν lib) := by
  simp [Inv, init, listeners, liveCharts]

theorem run_inv {ν : Type} (upper : String → String) (es : List (Event ν)) (w : World ν)
    (hw : Inv w) : Inv (run upper w es) := by
  induction es generalizing w with
  | nil => exact hw
  | cons e es ih => exact ih _ (step_inv upper w e hw)

/-! ## Requests and the ticker along the lifecycle -/

theorem effect_ticker {ν : Type} (w : World ν) : (effect w).ticker = w.ticker := by
  cases hc : w.container with
  | none => simp [effect, hc]
  | some width => exact (effect_spec w width hc).2.2.2.2.2.2.2

theorem rerun_ticker {ν : Type} (w : World ν) : (rerun w).ticker = w.ticker := by
  unfold rerun
  split
  · rw [effect_ticker, (cleanup_spec _ w).2.2.2.2.2.2.2]
  · exact effect_ticker w

theorem step_ticker {ν : Type} (upper : String → String) (w : World ν) (e : Event ν) :
    (step upper w e).ticker = w.ticker
      ∨ ∃ value, (step upper w e).ticker = upper value := by
  cases e with
  | mount width =>
    simp only [step]
    split
    · left; rw [effect_ticker]
    · left; rfl
  | tickerChange value =>
    simp only [step, tickerOnChange, setTicker]
    split
    · split
      · left; rfl
      · right; exact ⟨value, by rw [rerun_ticker]⟩
    · left; rfl
  | startDateChange value =>
    simp only [step, setStartDate]
    split
    · split
      · left; rfl
      · left; rw [rerun_ticker]
    · left; rfl
  | endDateChange value =>
    simp only [step, setEndDate]
    split
    · split
      · left; rfl
      · left; rw [rerun_ticker]
    · left; rfl
  | submit =>
    simp only [step]
    split
    · left; exact (handleSubmit_shell w).2.2.2.2.2.2.2
    · left; rfl
  | resize width =>
    left
    exact (resize_fold_shell _ _).2.2.2.2.2.2.2
  | settle i o =>
    left
    exact (settle_shell i o w).2.2.2.2.2.2.2
  | unmount =>
    simp only [step]
    split
    · left
      split
      · exact (cleanup_spec _ w).2.2.2.2.2.2.2
      · rfl
    · left; rfl

theorem cleanup_query {ν : Type} (l : Nat) (w : World ν) :
    requests (cleanup l w).log = requests w.log ∧ url (cleanup l w) = url w
      ∧ (cleanup l w).container = w.container ∧ (cleanup l w).lib = w.lib := by
  unfold cleanup
  cases hc : w.chartRef <;> simp [World.call, hc, requests_append, requests, url]

theorem effect_requests {ν : Type} (w : World ν) (h : w.container.isSome = true) :
    (w.lib = Library.full → requests (effect w).log = requests w.log ++ [url w])
      ∧ (w.lib ≠ Library.full → requests (effect w).log = requests w.log) := by
  obtain ⟨width, hwd⟩ := Option.isSome_iff_exists.mp h
  constructor
  · intro hl
    simp [effect, hwd, tryInit, hl, World.call, World.andThen, fetchData, requests_append,
      requests, url]
  · intro hl
    cases hlib : w.lib with
    | full => exact absurd hlib hl
    | unavailable message =>
      simp [effect, hwd, tryInit, hlib, World.call, World.setError, requests_append, requests]
    | noCandlestick =>
      simp [effect, hwd, tryInit, hlib, World.call, World.setError, requests_append, requests]

theorem rerun_requests {ν : Type} (w : World ν) (h : w.container.isSome = true) :
    (w.lib = Library.full → requests (rerun w).log = requests w.log ++ [url w])
      ∧ (w.lib ≠ Library.full → requests (rerun w).log = requests w.log) := by
  unfold rerun
  split
  · rename_i l _
    obtain ⟨c1, c2, c3, c4⟩ := cleanup_query l w
    have e := effect_requests (cleanup l w) (by rw [c3]; exact h)
    rw [c1, c2, c4] at e
    exact e
  · exact effect_requests w h

theorem upperChar_idem (c : Char) : upperChar (upperChar c) = upperChar c := by
  unfold upperChar
  split
  · rename_i h
    have h2 : ¬ (97 ≤ (Char.ofNat (c.toNat - 32)).toNat ∧ (Char.ofNat (c.toNat - 32)).toNat ≤ 122) := by
      obtain ⟨h1, h3⟩ := h
      generalize c.toNat = n at h1 h3
      interval_cases n <;> decide
    rw [if_neg h2]
  · rfl

theorem toUpperCase_idem (s : String) : toUpperCase (toUpperCase s) = toUpperCase s := by
  have e : (upperChar ∘ upperChar) = upperChar := funext upperChar_idem
  simp [toUpperCase, e]

theorem effect_lib {ν : Type} (w : World ν) : (effect w).lib = w.lib := by
  cases hc : w.container with
  | none => simp [effect, hc]
  | some width => exact (effect_spec w width hc).2.2.2.2.2.2.1

theorem rerun_lib {ν : Type} (w : World ν) : (rerun w).lib = w.lib := by
  unfold rerun
  split
  · rw [effect_lib, (cleanup_spec _ w).2.2.2.2.2.2.1]
  · exact effect_lib w

theorem step_lib {ν : Type} (upper : String → String) (w : World ν) (e : Event ν) :
    (step upper w e).lib = w.lib := by
  cases e with
  | mount width =>
    simp only [step]
    split
    · rw [effect_lib]
    · rfl
  | tickerChange value =>
    simp only [step, tickerOnChange, setTicker]
    split
    · split
      · rfl
      · rw [rerun_lib]
    · rfl
  | startDateChange value =>
    simp only [step, setStartDate]
    split
    · split
      · rfl
      · rw [rerun_lib]
    · rfl
  | endDateChange value =>
    simp only [step, setEndDate]
    split
    · split
      · rfl
      · rw [rerun_lib]
    · rfl
  | submit =>
    simp only [step]
    split
    · exact (handleSubmit_shell w).2.2.2.2.2.2.1
    · rfl
  | resize width => exact (resize_fold_shell _ _).2.2.2.2.2.2.1
  | settle i o => exact (settle_shell i o w).2.2.2.2.2.2.1
  | unmount =>
    simp only [step]
    split
    · split
      · exact (cleanup_spec _ w).2.2.2.2.2.2.1
      · rfl
    · rfl

theorem run_lib {ν : Type} (upper : String → String) (es : List (Event ν)) (w : World ν) :
    (run upper w es).lib = w.lib := by
  induction es generalizing w with
  | nil => rfl
  | cons e es ih =>
    show (run upper (step upper w e) es).lib = w.lib
    rw [ih, step_lib]

theorem run_ticker {ν : Type} (upper : String → String)
    (hi : ∀ s, upper (upper s) = upper s) (es : List (Event ν)) (w : World ν)
    (hw : upper w.ticker = w.ticker) : upper (run upper w es).ticker = (run upper w es).ticker := by
  induction es generalizing w with
  | nil => exact hw
  | cons e es ih =>
    refine ih (step upper w e) ?_
    rcases step_ticker upper w e with h | ⟨value, h⟩
    · rw [h]; exact hw
    · rw [h]; exact hi value

/-! ## The claims -/

/-- C1: a non-2xx response with body `{"error": "X"}` should end with
`ErrorState == "X"`. Evaluated on the code: `fetchData` does record `"X"`, but
it resolves to `[]`, and the `.then` handler of the effect, and likewise the
one of `handleSubmit`, then replaces the message by the one for an empty result. -/
theorem C1_error_message_overwritten :
    (fetchDataSettle (.response false (.object (some "X")))
        (run toUpperCase (init Int .full) [.mount 800])).1.error = some "X"
    ∧ (run toUpperCase (init Int .full)
        [.mount 800, .settle 0 (.response false (.object (some "X")))]).error
      = some "No data received from backend"
    ∧ (run toUpperCase (init Int .full)
        [.mount 800, .settle 0 (.response true (.array [⟨"2023-01-03", 130, 132, 129, 131⟩])),
          .submit, .settle 0 (.response false (.object (some "X")))]).error
      = some "No data received from backend"
    ∧ (run toUpperCase (init Int .full)
        [.mount 800, .settle 0 (.response false (.object none))]).error
      = some "No data received from backend" := by
  decide

/-- C2: a 2xx response whose body is the empty array, completed on either
path (`h` is the effect's handler or the one of `handleSubmit`) in any state,
sets `ErrorState` to a message and makes no call at all, so no series is
touched. -/
theorem C2_empty_array_sets_error {ν : Type} (w : World ν) (h : Handler) :
    (complete h (.response true (.array [])) w).error = some "No data received from backend"
    ∧ (complete h (.response true (.array [])) w).error ≠ none
    ∧ (complete h (.response true (.array [])) w).log = w.log
    ∧ dataSets (complete h (.response true (.array [])) w).log = dataSets w.log
    ∧ ∀ i, dataSets (settle i (.response true (.array [])) w).log = dataSets w.log
        ∧ (i < w.pending.length →
            (settle i (.response true (.array [])) w).error
              = some "No data received from backend") := by
  obtain ⟨h1, h2⟩ := complete_empty h w
  refine ⟨h1, by rw [h1]; simp, h2, by rw [h2], ?_⟩
  intro i
  unfold settle
  cases hp : w.pending.get? i with
  | none =>
    refine ⟨rfl, ?_⟩
    intro hi
    rw [List.get?_eq_none] at hp
    omega
  | some k =>
    obtain ⟨k1, k2⟩ := complete_empty k { w with pending := w.pending.eraseIdx i }
    exact ⟨by simp only [k2], fun _ => k1⟩

/-- C3: a 2xx response with `N ≥ 1` well-formed records in ascending date
order, completed on either path while a chart with its series is held: the
calls made are exactly `setData` with the mapped records and then
`fitContent` on the held chart; the dataset has `N` points, the point at each
position comes from the response's record at that position, every point has a
time, and the times are ascending. -/
theorem C3_dataset_and_fit {ν : Type} (w : World ν) (c : ChartHandle)
    (records : List (DailyBar ν)) (h : Handler)
    (hc : w.chartRef = some c) (hs : 0 < c.series) (hn : records ≠ [])
    (hwf : ∀ r ∈ records, wellFormed r = true)
    (hasc : records.Pairwise (fun a b => dateLe a.date b.date)) :
    (∃ chart, (complete h (.response true (.array records)) w).log
        = w.log ++ [.setData chart 0 (records.map toPoint), .fitContent c.id])
    ∧ (records.map toPoint).length = records.length
    ∧ (∀ i : Nat, (records.map toPoint)[i]? = (records[i]?).map toPoint)
    ∧ (∀ p ∈ records.map toPoint, p.time.isSome = true)
    ∧ (records.map toPoint).Pairwise
        (fun p q => ∃ s t, p.time = some s ∧ q.time = some t ∧ s ≤ t) := by
  obtain ⟨_, chart, hlog, _, _⟩ := complete_ready h w c records hc hs hn
  refine ⟨⟨chart, hlog⟩, by simp, by simp, ?_, ?_⟩
  · intro p hp
    obtain ⟨r, hr, rfl⟩ := List.mem_map.mp hp
    have := hwf r hr
    unfold wellFormed at this
    obtain ⟨x, hx⟩ := Option.isSome_iff_exists.mp this
    simp [toPoint, floorDiv1000, dateGetTime, hx]
  · rw [List.pairwise_map]
    exact hasc.imp (fun hab => time_mono _ _ hab)

/-- C4: for a record whose date is the ISO text of a valid calendar date, the
epoch milliseconds read by `Date` are 1000 times the Unix epoch seconds of
the date, the mapped point carries those seconds as its time and the record's
open, high, low and close; and completing a load of that one record, on
either path, while a chart with its series is held, passes exactly that point
to `setData`, fits the time scale and leaves `ErrorState` null. -/
theorem C4_point_of_record {ν : Type} (c : CalDate) (o h l cl : ν) (hv : c.valid = true) :
    dateGetTime c.iso = some (epochSeconds c * 1000)
    ∧ toPoint ⟨c.iso, o, h, l, cl⟩ = ⟨some (epochSeconds c), o, h, l, cl⟩
    ∧ ∀ (w : World ν) (ch : ChartHandle) (hd : Handler), w.chartRef = some ch → 0 < ch.series →
        (complete hd (.response true (.array [⟨c.iso, o, h, l, cl⟩])) w).error = none
        ∧ ∃ chart, (complete hd (.response true (.array [⟨c.iso, o, h, l, cl⟩])) w).log
            = w.log ++ [.setData chart 0 [⟨some (epochSeconds c), o, h, l, cl⟩],
                .fitContent ch.id] := by
  obtain ⟨t1, t2⟩ := time_iso c hv
  have hp : toPoint (⟨c.iso, o, h, l, cl⟩ : DailyBar ν) = ⟨some (epochSeconds c), o, h, l, cl⟩ := by
    simp [toPoint, t2]
  refine ⟨t1, hp, ?_⟩
  intro w ch hd hc hs
  obtain ⟨e, chart, hlog, _, _⟩ :=
    complete_ready hd w ch [⟨c.iso, o, h, l, cl⟩] hc hs (by simp)
  refine ⟨e, chart, ?_⟩
  rw [hlog]
  simp [hp]

/-- The scenario of C4: the record of 2023-01-03 with prices 130, 132, 129, 131. -/
theorem C4_point_of_record_witness :
    CalDate.valid ⟨2023, 1, 3⟩ = true
    ∧ toPoint (⟨"2023-01-03", 130, 132, 129, 131⟩ : DailyBar Int)
        = ⟨some 1672704000, 130, 132, 129, 131⟩
    ∧ (run toUpperCase (init Int .full)
        [.mount 800, .settle 0 (.response true (.array [⟨"2023-01-03", 130, 132, 129, 131⟩]))]).error
        = none
    ∧ dataSets (run toUpperCase (init Int .full)
        [.mount 800, .settle 0 (.response true (.array [⟨"2023-01-03", 130, 132, 129, 131⟩]))]).log
        = [(0, 0, [⟨some 1672704000, 130, 132, 129, 131⟩])] :=
  ⟨by decide, (C4_point_of_record ⟨2023, 1, 3⟩ (130 : Int) 132 129 131 (by decide)).2.1,
    ((C4_point_of_record ⟨2023, 1, 3⟩ (130 : Int) 132 129 131 (by decide)).2.2
      { run toUpperCase (init Int .full) [.mount 800] with pending := [] } ⟨0, 1⟩ (.effect 0)
      (by decide) (by decide)).1,
    by decide⟩

/-- A run of C3: two records in date order, completed by the handler of
`handleSubmit` on the chart created at mount. -/
theorem C3_dataset_and_fit_witness :
    (run toUpperCase (init Int .full) [.mount 800]).chartRef = some ⟨0, 1⟩
    ∧ (∃ chart, (complete .submit (.response true (.array
          [⟨"2023-01-03", 130, 132, 129, 131⟩, ⟨"2023-01-04", 131, 133, 130, 132⟩]))
          (run toUpperCase (init Int .full) [.mount 800])).log
        = (run toUpperCase (init Int .full) [.mount 800]).log
          ++ [.setData chart 0 (List.map toPoint
              [⟨"2023-01-03", 130, 132, 129, 131⟩, ⟨"2023-01-04", 131, 133, 130, 132⟩]),
            .fitContent 0])
    ∧ (List.map toPoint ([⟨"2023-01-03", 130, 132, 129, 131⟩,
          ⟨"2023-01-04", 131, 133, 130, 132⟩] : List (DailyBar Int))).length = 2 :=
  ⟨by decide,
    (C3_dataset_and_fit (run toUpperCase (init Int .full) [.mount 800]) ⟨0, 1⟩
      [⟨"2023-01-03", 130, 132, 129, 131⟩, ⟨"2023-01-04", 131, 133, 130, 132⟩] .submit
      (by decide) (by decide) (by decide) (by decide) (by decide)).1,
    (C3_dataset_and_fit (run toUpperCase (init Int .full) [.mount 800]) ⟨0, 1⟩
      [⟨"2023-01-03", 130, 132, 129, 131⟩, ⟨"2023-01-04", 131, 133, 130, 132⟩] .submit
      (by decide) (by decide) (by decide) (by decide) (by decide)).2.1⟩

/-- C5: a response should reach the chart only while a chart is held.
Evaluated on the code: after mount and unmount the chart 0 is removed and
`chartRef` is null, yet when the request of the effect then resolves with one
record the handler calls `setData` on the series of chart 0 and then throws;
after mount and a ticker change it calls `setData` on the removed chart 0 and
`fitContent` on the new chart 2. The handler of `handleSubmit` makes no call
when no chart is held. -/
theorem C5_effect_handler_after_cleanup :
    (run toUpperCase (init Int .full)
        [.mount 800, .unmount,
          .settle 0 (.response true (.array [⟨"2023-01-03", 130, 132, 129, 131⟩]))]).log
      = [.createChart 0 800 500, .addCandlestickSeries 0,
         .fetch "http://localhost:5001/api/stock/AAPL?start=2023-01-01&end=2024-01-01",
         .addEventListener 1, .removeEventListener 1, .remove 0,
         .setData 0 0 [⟨some 1672704000, 130, 132, 129, 131⟩]]
    ∧ (run toUpperCase (init Int .full)
        [.mount 800, .unmount,
          .settle 0 (.response true (.array [⟨"2023-01-03", 130, 132, 129, 131⟩]))]).uncaught
      = 1
    ∧ (run toUpperCase (init Int .full)
        [.mount 800, .tickerChange "msft",
          .settle 0 (.response true (.array [⟨"2023-01-03", 130, 132, 129, 131⟩]))]).log
      = [.createChart 0 800 500, .addCandlestickSeries 0,
         .fetch "http://localhost:5001/api/stock/AAPL?start=2023-01-01&end=2024-01-01",
         .addEventListener 1, .removeEventListener 1, .remove 0,
         .createChart 2 800 500, .addCandlestickSeries 2,
         .fetch "http://localhost:5001/api/stock/MSFT?start=2023-01-01&end=2024-01-01",
         .addEventListener 3,
         .setData 0 0 [⟨some 1672704000, 130, 132, 129, 131⟩], .fitContent 2]
    ∧ (run toUpperCase (init Int .full)
        [.mount 800, .submit, .unmount,
          .settle 1 (.response true (.array [⟨"2023-01-03", 130, 132, 129, 131⟩]))]).log
      = [.createChart 0 800 500, .addCandlestickSeries 0,
         .fetch "http://localhost:5001/api/stock/AAPL?start=2023-01-01&end=2024-01-01",
         .addEventListener 1,
         .fetch "http://localhost:5001/api/stock/AAPL?start=2023-01-01&end=2024-01-01",
         .removeEventListener 1, .remove 0] := by
  decide

/-- C6: at most one created chart should be live, and none after a failed
creation. Evaluated on the code with a library whose charts have no
`addCandlestickSeries`: after mount `ErrorState` is set and `chartRef` is
null, but the chart 0 made by `createChart` is live; the cleanup does not
remove it at unmount, and after a ticker change a second chart is created
beside it. -/
theorem C6_chart_leaked_on_failed_creation :
    (run toUpperCase (init Int .noCandlestick) [.mount 800]).error
      = some "Failed to initialize chart: addCandlestickSeries is not available on chart object"
    ∧ (run toUpperCase (init Int .noCandlestick) [.mount 800]).chartRef = none
    ∧ liveCharts (run toUpperCase (init Int .noCandlestick) [.mount 800]).log = [0]
    ∧ liveCharts (run toUpperCase (init Int .noCandlestick) [.mount 800, .unmount]).log = [0]
    ∧ liveCharts (run toUpperCase (init Int .noCandlestick)
        [.mount 800, .tickerChange "msft"]).log = [0, 2] := by
  decide

/-- With a library that can create the series, or none at all, at most one
chart is live in every reachable state, and it is the one held in `chartRef`. -/
theorem liveCharts_le_one {ν : Type} (upper : String → String) (lib : Library)
    (es : List (Event ν)) (h : lib ≠ Library.noCandlestick) :
    liveCharts (run upper (init ν lib) es).log
        = ((run upper (init ν lib) es).chartRef.map (fun c => c.id)).toList
      ∧ (liveCharts (run upper (init ν lib) es).log).length ≤ 1 := by
  have hi := run_inv upper es (init ν lib) (init_inv ν lib)
  have hlib : (run upper (init ν lib) es).lib = lib := run_lib upper es (init ν lib)
  obtain ⟨_, _, _, _, _, i6⟩ := hi
  rw [hlib] at i6
  have e := i6 h
  refine ⟨e, ?_⟩
  rw [e]
  cases (run upper (init ν lib) es).chartRef <;> simp

/-- C7: from the initial state, after any sequence of events, the registered
resize listeners are exactly the one captured by the pending cleanup, hence at
most one; a mounted component has its container attached and a cleanup
pending; after unmount no listener is registered and `chartRef` is null.
Every effect run with the container attached registers exactly one listener,
the one its cleanup captures, and every cleanup removes the listener it
captured and leaves `chartRef` null. -/
theorem C7_resize_listener_lifecycle {ν : Type} (upper : String → String) (lib : Library)
    (es : List (Event ν)) :
    (listeners (run upper (init ν lib) es).log).length ≤ 1
    ∧ listeners (run upper (init ν lib) es).log = (run upper (init ν lib) es).cleanup.toList
    ∧ ((run upper (init ν lib) es).phase = Phase.mounted →
        (run upper (init ν lib) es).container.isSome = true
          ∧ (run upper (init ν lib) es).cleanup.isSome = true)
    ∧ ((run upper (init ν lib) es).phase = Phase.unmounted →
        listeners (run upper (init ν lib) es).log = []
          ∧ (run upper (init ν lib) es).chartRef = none)
    ∧ (∀ (v : World ν) (width : Nat), v.container = some width →
        ∃ l, (effect v).cleanup = some l ∧ listeners (effect v).log = listeners v.log ++ [l])
    ∧ (∀ (v : World ν) (l : Nat),
        listeners (cleanup l v).log = (listeners v.log).erase l
          ∧ (cleanup l v).chartRef = none) := by
  obtain ⟨i1, _, i3, i4, _, _⟩ := run_inv upper es (init ν lib) (init_inv ν lib)
  refine ⟨?_, i1, ?_, ?_, ?_, ?_⟩
  · rw [i1]
    cases (run upper (init ν lib) es).cleanup <;> simp
  · intro hp
    exact ⟨(i3 hp).2, (i3 hp).1⟩
  · intro hp
    obtain ⟨k1, k2⟩ := i4 hp
    refine ⟨?_, k2⟩
    rw [i1, k1]; rfl
  · intro v width hv
    obtain ⟨e1, e2, _⟩ := effect_spec v width hv
    exact ⟨_, e1, e2⟩
  · intro v l
    obtain ⟨c1, c2, _⟩ := cleanup_spec l v
    exact ⟨c1, c2⟩

/-- C8, as the claim states it, fails: with a library whose charts have no
`addCandlestickSeries`, the container attached and the ticker changed from
`AAPL` to `MSFT`, the effect runs again and issues no request. -/
theorem C8_no_request_without_chart :
    (run toUpperCase (init Int .noCandlestick) [.mount 800]).container = some 800
    ∧ (run toUpperCase (init Int .noCandlestick) [.mount 800]).ticker = "AAPL"
    ∧ (run toUpperCase (init Int .noCandlestick) [.mount 800, .tickerChange "MSFT"]).ticker
        = "MSFT"
    ∧ requests (run toUpperCase (init Int .noCandlestick) [.mount 800]).log = []
    ∧ requests (run toUpperCase (init Int .noCandlestick)
        [.mount 800, .tickerChange "MSFT"]).log = [] := by
  decide

/-- C8, amended: on a mounted component a form submission issues exactly one
request, to the URL of the current query; a change of a watched input, with
the container attached, issues exactly one request, to the URL of the new
query, when the library creates the chart and its series, and none when it
does not. -/
theorem C8_one_request_per_load {ν : Type} (upper : String → String) (w : World ν)
    (hp : w.phase = Phase.mounted) :
    requests (step upper w .submit).log = requests w.log ++ [url w]
    ∧ url w = "http://localhost:5001/api/stock/" ++ w.ticker ++ "?start=" ++ w.startDate
        ++ "&end=" ++ w.endDate
    ∧ (w.container.isSome = true →
        (∀ v, upper v ≠ w.ticker →
          (w.lib = Library.full →
            requests (step upper w (.tickerChange v)).log
              = requests w.log ++ [url { w with ticker := upper v }])
          ∧ (w.lib ≠ Library.full →
            requests (step upper w (.tickerChange v)).log = requests w.log))
        ∧ (∀ v, v ≠ w.startDate →
          (w.lib = Library.full →
            requests (step upper w (.startDateChange v)).log
              = requests w.log ++ [url { w with startDate := v }])
          ∧ (w.lib ≠ Library.full →
            requests (step upper w (.startDateChange v)).log = requests w.log))
        ∧ (∀ v, v ≠ w.endDate →
          (w.lib = Library.full →
            requests (step upper w (.endDateChange v)).log
              = requests w.log ++ [url { w with endDate := v }])
          ∧ (w.lib ≠ Library.full →
            requests (step upper w (.endDateChange v)).log = requests w.log))) := by
  refine ⟨?_, rfl, ?_⟩
  · simp [step, hp, handleSubmit, fetchData, World.call, World.andThen, requests_append,
      requests]
  · intro hc
    refine ⟨?_, ?_, ?_⟩
    · intro v hv
      simp only [step, tickerOnChange, setTicker]
      rw [if_pos hp, if_neg hv]
      exact rerun_requests { w with ticker := upper v } hc
    · intro v hv
      simp only [step, setStartDate]
      rw [if_pos hp, if_neg hv]
      exact rerun_requests { w with startDate := v } hc
    · intro v hv
      simp only [step, setEndDate]
      rw [if_pos hp, if_neg hv]
      exact rerun_requests { w with endDate := v } hc

/-- A run of C8: a submission on the component just mounted. -/
theorem C8_one_request_per_load_witness :
    (run toUpperCase (init Int .full) [.mount 800]).phase = Phase.mounted
    ∧ requests (step toUpperCase (run toUpperCase (init Int .full) [.mount 800]) .submit).log
        = requests (run toUpperCase (init Int .full) [.mount 800]).log
          ++ [url (run toUpperCase (init Int .full) [.mount 800])] :=
  ⟨by decide,
    (C8_one_request_per_load toUpperCase (run toUpperCase (init Int .full) [.mount 800])
      (by decide)).1⟩

/-- C9, as the claim states it, fails: clearing the ticker input stores the
empty string. -/
theorem C9_ticker_can_be_empty :
    (run toUpperCase (init Int .full) [.mount 800, .tickerChange ""]).ticker = "" := by
  decide

/-- C9, amended: for an upper-casing that maps every upper-cased string and
`AAPL` to itself, the ticker is equal to its own upper-casing in every state
reached from the initial state by any sequence of events. -/
theorem C9_ticker_upper_cased {ν : Type} (upper : String → String)
    (hi : ∀ s, upper (upper s) = upper s) (h0 : upper "AAPL" = "AAPL") (lib : Library)
    (es : List (Event ν)) :
    upper (run upper (init ν lib) es).ticker = (run upper (init ν lib) es).ticker :=
  run_ticker upper hi es (init ν lib) h0

/-- A run of C9 with the ASCII upper-casing. -/
theorem C9_ticker_upper_cased_witness :
    (∀ s, toUpperCase (toUpperCase s) = toUpperCase s)
    ∧ toUpperCase "AAPL" = "AAPL"
    ∧ toUpperCase (run toUpperCase (init Int .full) [.mount 800, .tickerChange "msft"]).ticker
        = (run toUpperCase (init Int .full) [.mount 800, .tickerChange "msft"]).ticker :=
  ⟨toUpperCase_idem, by decide,
    C9_ticker_upper_cased toUpperCase toUpperCase_idem (by decide) .full
      [.mount 800, .tickerChange "msft"]⟩

/-- C10: the two response handlers should behave alike. Evaluated on the
code after mount and unmount, when no chart is held, on a response of one
record: the handler of the effect calls `setData` on the series of the
removed chart 0, throws and leaves `ErrorState` as it was, while the handler
of `handleSubmit` makes no call and sets `ErrorState`. -/
theorem C10_handlers_differ_without_chart :
    (run toUpperCase (init Int .full) [.mount 800, .unmount]).chartRef = none
    ∧ dataSets (complete (.effect 0)
        (.response true (.array [⟨"2023-01-03", 130, 132, 129, 131⟩]))
        (run toUpperCase (init Int .full) [.mount 800, .unmount])).log
      = [(0, 0, [⟨some 1672704000, 130, 132, 129, 131⟩])]
    ∧ (complete (.effect 0) (.response true (.array [⟨"2023-01-03", 130, 132, 129, 131⟩]))
        (run toUpperCase (init Int .full) [.mount 800, .unmount])).error = none
    ∧ (complete (.effect 0) (.response true (.array [⟨"2023-01-03", 130, 132, 129, 131⟩]))
        (run toUpperCase (init Int .full) [.mount 800, .unmount])).uncaught = 1
    ∧ dataSets (complete .submit
        (.response true (.array [⟨"2023-01-03", 130, 132, 129, 131⟩]))
        (run toUpperCase (init Int .full) [.mount 800, .unmount])).log = []
    ∧ (complete .submit (.response true (.array [⟨"2023-01-03", 130, 132, 129, 131⟩]))
        (run toUpperCase (init Int .full) [.mount 800, .unmount])).error
      = some "No data received from backend" := by
  decide

end MarketChart
